import Mathlib

/-!
Verification of tap-spreadsheets-anywhere against its design specification.

The development shallowly embeds the code of
`tap_spreadsheets_anywhere/__init__.py` and
`tap_spreadsheets_anywhere/configuration.py`.  Python dictionaries are
modelled as insertion-ordered association lists over an inductive JSON-like
value type; the sync loop is modelled as a structural recursion over the
candidate file list that produces the emitted message trace, the sequence of
persisted state writes, and the per-file emission log.  Collaborator modules
that are not part of the embedded sources (`file_utils`, `conversion`) are
modelled from the specification text; each such definition carries a doc
comment saying so.
-/

namespace TapSpreadsheets

/-- A JSON-like value, modelling the Python values that appear in config
blocks, schema dictionaries and catalog entries. -/
inductive JVal where
  | str : String → JVal
  | bool : Bool → JVal
  | int : Int → JVal
  | arr : List JVal → JVal
  | obj : List (String × JVal) → JVal

/-- A Python dict with string keys: an insertion-ordered association list. -/
abbrev Obj := List (String × JVal)

/-- First binding for key `k`, modelling Python `d[k]` / `d.get(k)`. -/
def lookupD (d : Obj) (k : String) : Option JVal :=
  match d with
  | [] => none
  | (k', v) :: rest => if k' = k then some v else lookupD rest k

/-- Does the dict have a binding for `k`?  Models Python `k in d`. -/
def hasKey (d : Obj) (k : String) : Bool :=
  match d with
  | [] => false
  | (k', _) :: rest => k' = k || hasKey rest k

/-- Python dict assignment `d[k] = v`: an existing key keeps its position and
is overwritten, a new key is appended at the end. -/
def setKey (d : Obj) (k : String) (v : JVal) : Obj :=
  match d with
  | [] => [(k, v)]
  | (k', v') :: rest => if k' = k then (k', v) :: rest else (k', v') :: setKey rest k v

mutual

/-- One iteration step of the `for key in second` loop inside `merge_dicts`
(`__init__.py` lines 25-32): given `first[key]` (if present) and
`second[key]`, the value written is the recursive merge when both are dicts,
and `second[key]` otherwise. -/
def mergeVal (fst : Option JVal) : JVal → JVal
  | JVal.obj b =>
    match fst with
    | some (JVal.obj a) => JVal.obj (mergeLoop a a b)
    | _ => JVal.obj b
  | v => v

/-- The loop of `merge_dicts`: `acc` plays the role of `to_return`, which
starts as `first.copy()`; the lookups that decide how to merge go to
`first`. -/
def mergeLoop (first acc : Obj) : List (String × JVal) → Obj
  | [] => acc
  | (k, v) :: rest => mergeLoop first (setKey acc k (mergeVal (lookupD first k) v)) rest

end

/-- Embeds `merge_dicts(first, second)` from `__init__.py` lines 22-34: start from a
copy of `first`; for each key of `second`, recursively merge when both sides
hold dicts, otherwise take `second`'s value. -/
def merge_dicts (first second : Obj) : Obj :=
  mergeLoop first first second

/-- Embeds `override_schema_with_config(inferred_schema, table_spec)` from
`__init__.py` lines 37-41. -/
def override_schema_with_config (inferred_schema : Obj) (table_spec : Obj) : Obj :=
  merge_dicts inferred_schema
    [("properties", (lookupD table_spec "schema_overrides").getD (JVal.obj [])),
     ("selected", (lookupD table_spec "selected").getD (JVal.bool true))]

/-- One candidate file as listed by the storage collaborator: key/path,
last-modified timestamp (modelled as a Nat), and its record count (the number
of records the format collaborator decodes from it). -/
structure TFile where
  key : String
  last_modified : Nat
  records : Nat
deriving DecidableEq

/-- Modelled from the spec: `file_utils.write_file` (not under the embedded
sources) streams a file's records and, per spec section 4.5 step 5, truncates
emission to the remaining per-run budget it is handed
(`max_records_per_run - records_streamed`); a non-positive budget means
unbounded, since `max_records_per_run` defaults to `-1` meaning unlimited.
Returns the number of records emitted. -/
def write_file (records : Nat) (max_records : Int) : Nat :=
  if max_records ≤ 0 then records else min records max_records.toNat

/-- A message emitted by the tap, as consumed downstream: the schema message
written at stream start, one record message per emitted record (tagged with
the ActivateVersion epoch for full-replace streams), state (watermark)
writes, and ActivateVersion epoch signals. -/
inductive Msg where
  | schemaMsg : Obj → Msg
  | record : String → Nat → Option Nat → Msg
  | stateWrite : Nat → Msg
  | activate : Nat → Msg

/-- The record messages `write_file` emits for one file: positions are
1-based per spec section 4.5 step 4. -/
def fileRecords (f : TFile) (n : Nat) (ver : Option Nat) : List Msg :=
  (List.range n).map (fun i => Msg.record f.key (i + 1) ver)

/-- Result of the per-stream candidate-file loop (`__init__.py` lines
135-148): total records streamed, the stream's state entry after the run,
the sequence of watermark checkpoints written (in order), the per-file
emission log (file, records emitted from it), the emitted message trace, and
whether the loop ended by hitting the per-run budget. -/
structure RunResult where
  streamed : Nat
  entry : Option Nat
  cps : List Nat
  log : List (TFile × Nat)
  msgs : List Msg
  truncated : Bool

/-- The candidate-file loop of `sync` (`__init__.py` lines 136-148):
`records_streamed += write_file(..., max_records=max_records_per_run -
records_streamed, ...)`; if `0 < max_records_per_run <= records_streamed`
the loop breaks before writing state; otherwise the stream's state entry is
set to the file's last-modified timestamp and the state is written. -/
def syncFiles (maxR : Int) (ver : Option Nat) :
    List TFile → Nat → Option Nat → RunResult
  | [], s, e =>
    { streamed := s, entry := e, cps := [], log := [], msgs := [], truncated := false }
  | f :: rest, s, e =>
    let n := write_file f.records (maxR - (s : Int))
    let s' := s + n
    if 0 < maxR ∧ maxR ≤ (s' : Int) then
      { streamed := s', entry := e, cps := [], log := [(f, n)],
        msgs := fileRecords f n ver, truncated := true }
    else
      let r := syncFiles maxR ver rest s' (some f.last_modified)
      { streamed := r.streamed, entry := r.entry,
        cps := f.last_modified :: r.cps, log := (f, n) :: r.log,
        msgs := fileRecords f n ver ++ Msg.stateWrite f.last_modified :: r.msgs,
        truncated := r.truncated }

/-- File ordering used by the File Selector: modification time ascending,
ties broken by key/path ascending (spec section 4.1). -/
def fileLE (f g : TFile) : Bool :=
  f.last_modified < g.last_modified ||
    (f.last_modified = g.last_modified && !(g.key < f.key))

/-- Insert a file into a list sorted by `fileLE`. -/
def insertFile (f : TFile) : List TFile → List TFile
  | [] => [f]
  | g :: rest => if fileLE f g then f :: g :: rest else g :: insertFile f rest

/-- Insertion sort by `fileLE`. -/
def sortFiles : List TFile → List TFile
  | [] => []
  | f :: rest => insertFile f (sortFiles rest)

/-- Modelled from the spec: `file_utils.get_matching_objects` (not under the
embedded sources) returns, per spec section 4.1, exactly the files whose
modification time is strictly greater than the watermark, ordered by
modification time ascending with ties broken by path. -/
def get_matching_objects (allFiles : List TFile) (modified_since : Nat) : List TFile :=
  sortFiles (allFiles.filter (fun f => modified_since < f.last_modified))

/-- The per-stream body of `sync` (`__init__.py` lines 99-154) for a stream
whose config block was found: write the schema merged with the config
overrides; for a full-table-replace stream mint a version and emit the
ActivateVersion message before the data when no `modified_since` is
persisted; resolve the watermark from the persisted state entry or
`start_date`; run the candidate-file loop; and for a full-table-replace
stream emit the ActivateVersion message again at the end.  `version` models
`int(time.time() * 1000)` and `prev` models
`state.get(stream_id, {}).get('modified_since')`. -/
def syncStream (table_spec : Obj) (full_table_replace : Bool) (maxR : Int)
    (start_date : Nat) (prev : Option Nat) (version : Nat)
    (catalog_schema : Obj) (allFiles : List TFile) : List Msg × RunResult :=
  let merged_schema := override_schema_with_config catalog_schema table_spec
  let av : Option Nat := if full_table_replace then some version else none
  let beginMsgs : List Msg :=
    if full_table_replace && prev.isNone then [Msg.activate version] else []
  let modified_since := prev.getD start_date
  let target_files := get_matching_objects allFiles modified_since
  let r := syncFiles maxR av target_files 0 prev
  let endMsgs : List Msg := if full_table_replace then [Msg.activate version] else []
  (Msg.schemaMsg merged_schema :: (beginMsgs ++ r.msgs ++ endMsgs), r)

/-- Is a message an ActivateVersion (epoch) signal? -/
def isActivate : Msg → Bool
  | Msg.activate _ => true
  | _ => false

/-- Number of ActivateVersion (epoch) signals in a trace. -/
def countActivate (t : List Msg) : Nat := t.countP isActivate

/-- The state entry after a sequence of checkpoint writes, starting from
entry `e`: the last write if there is one, otherwise `e`. -/
def lastEntry (e : Option Nat) : List Nat → Option Nat
  | [] => e
  | x :: rest => lastEntry (some x) rest

/-- Total number of records emitted across a per-file emission log. -/
def sumEmit (l : List (TFile × Nat)) : Nat := (l.map (fun p => p.2)).sum

/-- The message trace produced by a run of fully-processed, checkpointed
files: each file's records followed by its state write. -/
def tracePre (ver : Option Nat) (l : List (TFile × Nat)) : List Msg :=
  (l.map (fun p => fileRecords p.1 p.2 ver ++ [Msg.stateWrite p.1.last_modified])).flatten

/-- The keys of a dict are pairwise distinct (always true of a Python dict;
needed because the embedding represents dicts as association lists). -/
def keyNodup (d : Obj) : Prop := (d.map (fun p => p.1)).Nodup

/-- Is the value a dict?  Models Python `isinstance(v, dict)`. -/
def isObjVal : JVal → Bool
  | JVal.obj _ => true
  | _ => false

/-- A catalog entry as produced by `discover` (`__init__.py` lines 73-88):
the stream identifier (`table_spec['name']`), the merged schema, and
`table_spec.get('key_properties', [])`. -/
structure CatalogEntryM where
  tap_stream_id : JVal
  schema : Obj
  key_properties : JVal

/-- Modelled from the spec: the collaborator operations `discover` calls
that live outside the embedded sources (`dateutil.parser.parse`,
`file_utils.get_matching_objects`, `file_utils.sample_files` and
`conversion.generate_schema`); any of them may raise, modelled as
`Except`. -/
structure Collab where
  parseDate : String → Except String Nat
  getMatching : Obj → Nat → Except String (List TFile)
  sampleFiles : Obj → List TFile → Except String (List Obj)
  generateSchema : List Obj → Except String Obj

/-- Python `d[k]` expecting a string value: raises when the key is missing
(KeyError) and when the value has the wrong shape for its use. -/
def getStr (d : Obj) (k : String) : Except String String :=
  match lookupD d k with
  | some (JVal.str s) => Except.ok s
  | some _ => Except.error "TypeError"
  | none => Except.error "KeyError"

/-- Python `d['name']`: raises KeyError when missing. -/
def getName (d : Obj) : Except String JVal :=
  match lookupD d "name" with
  | some v => Except.ok v
  | none => Except.error "KeyError: name"

/-- The fixed provenance-field schema of `discover` (`__init__.py` lines
57-61). -/
def metadata_schema : Obj :=
  [("_smart_source_bucket", JVal.obj [("type", JVal.str "string")]),
   ("_smart_source_file", JVal.obj [("type", JVal.str "string")]),
   ("_smart_source_lineno", JVal.obj [("type", JVal.str "integer")])]

/-- The body of `discover`'s per-table `try` block (`__init__.py` lines
47-88): parse `start_date`, list the matching files, sample them, infer the
data schema, merge in the metadata schema, apply the config overrides with
`override_schema_with_config`, and build the catalog entry.  Any failing
step aborts the entry. -/
def buildEntry (c : Collab) (table_spec : Obj) : Except String CatalogEntryM :=
  match getStr table_spec "start_date" with
  | Except.error e => Except.error e
  | Except.ok sd =>
  match c.parseDate sd with
  | Except.error e => Except.error e
  | Except.ok modified_since =>
  match c.getMatching table_spec modified_since with
  | Except.error e => Except.error e
  | Except.ok target_files =>
  match c.sampleFiles table_spec target_files with
  | Except.error e => Except.error e
  | Except.ok samples =>
  match c.generateSchema samples with
  | Except.error e => Except.error e
  | Except.ok data_schema =>
  match getName table_spec with
  | Except.error e => Except.error e
  | Except.ok name =>
    Except.ok
      { tap_stream_id := name,
        schema := override_schema_with_config
          [("type", JVal.str "object"),
           ("properties", JVal.obj (merge_dicts data_schema metadata_schema))] table_spec,
        key_properties := (lookupD table_spec "key_properties").getD (JVal.arr []) }

/-- Embeds `discover(config)` (`__init__.py` lines 44-92): build one catalog entry
per table block, in order; an exception while building an entry is caught
and the table skipped with a log line — but the `except` handler itself
evaluates `table_spec['name']` inside its log f-string, so a failing table
block with no `name` key raises out of `discover` itself. -/
def discover (c : Collab) : List Obj → Except String (List CatalogEntryM)
  | [] => Except.ok []
  | t :: rest =>
    match buildEntry c t with
    | Except.ok e => (discover c rest).map (fun es => e :: es)
    | Except.error _ =>
      if hasKey t "name" then discover c rest
      else Except.error "KeyError: name"

/-- Modelled from the spec: the scalar classification of one observed value
(spec section 4.3) — every sampled value is classified independently as
null, boolean-looking, integer-looking, decimal-looking, date-time-looking
or plain text. -/
inductive VKind where
  | vnull
  | vbool
  | vint
  | vnum
  | vdt
  | vstr
deriving DecidableEq, Fintype

/-- A resolved (non-null) field type of the inferred schema. -/
inductive FType where
  | fbool
  | fint
  | fnum
  | fdt
  | fstr
deriving DecidableEq, Fintype

/-- Modelled from the spec: the deterministic widening of two resolved field
types (spec section 4.3) — equal types stay, integer and number widen to
number, and every other conflict (anything with string, boolean with a
numeric or date-time type, date-time with a numeric type) widens to
string. -/
def widen (a b : FType) : FType :=
  if a = b then a
  else if (a = FType.fint ∧ b = FType.fnum) ∨ (a = FType.fnum ∧ b = FType.fint) then FType.fnum
  else FType.fstr

/-- The type constraint contributed by one observed value: null contributes
none (spec section 4.3: absent or explicit null stays unresolved until a
non-null value is seen). -/
def kindType : VKind → Option FType
  | VKind.vnull => none
  | VKind.vbool => some FType.fbool
  | VKind.vint => some FType.fint
  | VKind.vnum => some FType.fnum
  | VKind.vdt => some FType.fdt
  | VKind.vstr => some FType.fstr

/-- One step of the per-field fold: fold the next observed value into the
accumulated resolution, widening on conflict. -/
def inferStep (acc : Option FType) (v : VKind) : Option FType :=
  match kindType v with
  | none => acc
  | some t =>
    match acc with
    | none => some t
    | some a => some (widen a t)

/-- Modelled from the spec: the resolution of one field from the sequence of
its observed values (spec section 4.3) — scan every value and reduce by
deterministic widening; `none` means the field stayed unresolved (only nulls
seen). -/
def inferField (vs : List VKind) : Option FType := vs.foldl inferStep none

/-- Modelled from the spec: the final resolved type of one field, applying
spec section 4.3's fallback — a field seen only as null across the whole
sample resolves to the union of null and string, whose non-null component is
string; a field with at least one non-null value resolves to the widened
type. -/
def resolveField (vs : List VKind) : FType := (inferField vs).getD FType.fstr

/-- Says `a` is at most as wide as `b` in the widening order (widening `a` into
`b` changes nothing). -/
def ftle (a b : FType) : Prop := widen a b = b

instance ftleDecidable (a b : FType) : Decidable (ftle a b) :=
  inferInstanceAs (Decidable (widen a b = b))

/-- Order on resolutions: unresolved is below everything; resolved types
compare by the widening order. -/
def oftle : Option FType → Option FType → Prop
  | none, _ => True
  | some _, none => False
  | some a, some b => ftle a b

instance oftleDecidable : ∀ (a b : Option FType), Decidable (oftle a b)
  | none, _ => Decidable.isTrue trivial
  | some _, none => Decidable.isFalse id
  | some a, some b => inferInstanceAs (Decidable (widen a b = b))

/-- The allowed `format` values of the config contract
(`configuration.py` line 15). -/
def allowedFormat (s : String) : Bool :=
  s = "csv" || s = "excel" || s = "json" || s = "detect"

/-- The type names allowed inside `schema_overrides`
(`configuration.py` lines 32-33). -/
def allowedTypeName (s : String) : Bool :=
  s = "null" || s = "string" || s = "integer" || s = "number" || s = "date-time"

/-- A `type` declaration inside `schema_overrides`: one allowed type name or
a list of allowed type names (`configuration.py` lines 32-33). -/
def checkTypeDecl : JVal → Bool
  | JVal.str s => allowedTypeName s
  | JVal.arr l =>
    l.all (fun x => match x with
      | JVal.str s => allowedTypeName s
      | _ => false)
  | _ => false

/-- One `schema_overrides` entry: a dict whose only key is the required
`type`, holding an allowed type declaration (`configuration.py` lines
30-35; voluptuous rejects extra keys by default). -/
def checkOverrideEntry : JVal → Bool
  | JVal.obj kvs =>
    (match lookupD kvs "type" with
     | some t => checkTypeDecl t
     | none => false) && kvs.all (fun p => p.1 = "type")
  | _ => false

/-- The `schema_overrides` block: a dict mapping arbitrary field names to
override entries. -/
def checkOverrides : JVal → Bool
  | JVal.obj kvs => kvs.all (fun p => checkOverrideEntry p.2)
  | _ => false

/-- Is the value a string? -/
def isStrVal : JVal → Bool
  | JVal.str _ => true
  | _ => false

/-- Is the value a bool? -/
def isBoolVal : JVal → Bool
  | JVal.bool _ => true
  | _ => false

/-- Is the value an int? -/
def isIntVal : JVal → Bool
  | JVal.int _ => true
  | _ => false

/-- Is the value a list of strings? -/
def isStrList : JVal → Bool
  | JVal.arr l => l.all isStrVal
  | _ => false

/-- One key of a table block against the declared contract
(`configuration.py` lines 10-35): required and optional keys with their
types; any other key is rejected (voluptuous default). -/
def tableKeyOk (k : String) (v : JVal) : Bool :=
  if k = "path" || k = "name" || k = "pattern" || k = "start_date" then isStrVal v
  else if k = "key_properties" || k = "field_names" then isStrList v
  else if k = "format" then
    (match v with
     | JVal.str s => allowedFormat s
     | _ => false)
  else if k = "invalid_format_action" then
    (match v with
     | JVal.str s => s = "ignore" || s = "fail"
     | _ => false)
  else if k = "universal_newlines" || k = "selected" || k = "prefer_number_vs_integer"
      || k = "full_table_replace" then isBoolVal v
  else if k = "search_prefix" || k = "worksheet_name" || k = "delimiter"
      || k = "quotechar" then isStrVal v
  else if k = "sample_rate" || k = "max_sampling_read" || k = "max_records_per_run"
      || k = "max_sampled_files" then isIntVal v
  else if k = "schema_overrides" then checkOverrides v
  else false

/-- One table block: every present key satisfies its declared shape, and the
six required keys are present (`configuration.py` lines 9-15). -/
def checkTable : JVal → Bool
  | JVal.obj kvs =>
    kvs.all (fun p => tableKeyOk p.1 p.2) &&
    (["path", "name", "pattern", "start_date", "key_properties", "format"].all
      (fun k => (lookupD kvs k).isSome))
  | _ => false

/-- Embeds `CONFIG_CONTRACT` (`configuration.py` lines 8-37): a dict whose single
required key `tables` holds a list of valid table blocks; extra top-level
keys are rejected (voluptuous default). -/
def CONFIG_CONTRACT : JVal → Bool
  | JVal.obj kvs =>
    (match lookupD kvs "tables" with
     | some (JVal.arr ts) => ts.all checkTable
     | _ => false) && kvs.all (fun p => p.1 = "tables")
  | _ => false

/-- Embeds `Config.validate` (`configuration.py` lines 45-48): apply the contract
to the configuration — raising on violation — and return the configuration
itself unchanged. -/
def validate (config_json : JVal) : Except String JVal :=
  if CONFIG_CONTRACT config_json then Except.ok config_json
  else Except.error "config does not match CONFIG_CONTRACT"

/-- The post-crawl part of `main` (`__init__.py` lines 177-190): validate
the assembled tables config, then run discovery or sync on the validated
config.  The discovery and sync phases are abstracted as functions so that
it is visible that neither runs when validation fails.  (The crawl branch of
lines 165-175 only rewrites the tables config before this point and invokes
neither discovery nor sync.) -/
def main_flow (A B : Type) (tables_config : JVal) (discoverF : JVal → A)
    (syncF : JVal → B) (discoverFlag : Bool) : Except String (Option A × Option B) :=
  match validate tables_config with
  | Except.error e => Except.error e
  | Except.ok cfg =>
    if discoverFlag then Except.ok (some (discoverF cfg), none)
    else Except.ok (none, some (syncF cfg))

lemma lastEntry_isSome (x : Nat) : ∀ (l : List Nat), (lastEntry (some x) l).isSome = true := by
  intro l
  induction l generalizing x with
  | nil => rfl
  | cons y rest ih => exact ih y

lemma syncFiles_entry_eq_lastEntry (maxR : Int) (ver : Option Nat) :
    ∀ (files : List TFile) (s : Nat) (e : Option Nat),
    (syncFiles maxR ver files s e).entry = lastEntry e (syncFiles maxR ver files s e).cps := by
  intro files
  induction files with
  | nil => intro s e; rfl
  | cons f rest ih =>
    intro s e
    simp only [syncFiles]
    split
    · rfl
    · exact ih (s + write_file f.records (maxR - (s : Int))) (some f.last_modified)

lemma countActivate_nil : countActivate [] = 0 := rfl

lemma countActivate_append (t₁ t₂ : List Msg) :
    countActivate (t₁ ++ t₂) = countActivate t₁ + countActivate t₂ := by
  simp [countActivate, List.countP_append]

lemma countActivate_fileRecords (f : TFile) (n : Nat) (ver : Option Nat) :
    countActivate (fileRecords f n ver) = 0 := by
  simp only [countActivate, fileRecords, List.countP_eq_zero]
  intro a ha
  simp only [List.mem_map] at ha
  obtain ⟨i, _, rfl⟩ := ha
  simp [isActivate]

lemma countActivate_syncFiles (maxR : Int) (ver : Option Nat) :
    ∀ (files : List TFile) (s : Nat) (e : Option Nat),
    countActivate (syncFiles maxR ver files s e).msgs = 0 := by
  intro files
  induction files with
  | nil => intro s e; rfl
  | cons f rest ih =>
    intro s e
    simp only [syncFiles]
    split
    · exact countActivate_fileRecords f _ ver
    · simp only [countActivate_append, countActivate_fileRecords]
      have : countActivate (Msg.stateWrite f.last_modified ::
          (syncFiles maxR ver rest (s + write_file f.records (maxR - (s : Int)))
            (some f.last_modified)).msgs) =
          countActivate (syncFiles maxR ver rest (s + write_file f.records (maxR - (s : Int)))
            (some f.last_modified)).msgs := by
        simp [countActivate, List.countP_cons, isActivate]
      rw [this, ih]


lemma write_file_partial_fills (records : Nat) (maxR : Int) (s : Nat)
    (hs : (s : Int) < maxR)
    (hpart : write_file records (maxR - (s : Int)) < records) :
    ((s + write_file records (maxR - (s : Int)) : Nat) : Int) = maxR := by
  unfold write_file at hpart ⊢
  rw [if_neg (by omega)] at hpart ⊢
  rcases Nat.le_total records (maxR - (s : Int)).toNat with h | h
  · rw [Nat.min_eq_left h] at hpart; omega
  · rw [Nat.min_eq_right h] at hpart ⊢; omega

lemma write_file_complete_of_under (records : Nat) (maxR : Int) (s : Nat)
    (hunder : maxR ≤ 0 ∨ ((s + write_file records (maxR - (s : Int)) : Nat) : Int) < maxR) :
    write_file records (maxR - (s : Int)) = records := by
  unfold write_file at hunder ⊢
  by_cases hneg : maxR - (s : Int) ≤ 0
  · rw [if_pos hneg]
  · rw [if_neg hneg] at hunder ⊢
    rcases Nat.le_total records (maxR - (s : Int)).toNat with h | h
    · exact Nat.min_eq_left h
    · rw [Nat.min_eq_right h] at hunder ⊢; omega

/-- Core invariant behind claim C1: when a positive per-run budget is in
force and the loop's emission log shows a file that was only partially
emitted, the loop broke at that file: nothing comes after it in the log, the
checkpoints written are exactly the last-modified stamps of the files fully
processed before it (in order), and the stream's state entry is the last of
those checkpoints (or the incoming entry when there is none). -/
theorem syncFiles_truncation_stops_run (maxR : Int) (ver : Option Nat) :
    ∀ (files : List TFile) (s : Nat) (e : Option Nat) (r : RunResult),
    syncFiles maxR ver files s e = r → 0 < maxR → (s : Int) < maxR →
    ∀ pre f n post, r.log = pre ++ (f, n) :: post → n < f.records →
    post = [] ∧
    r.cps = pre.map (fun p => p.1.last_modified) ∧
    r.entry = lastEntry e (pre.map (fun p => p.1.last_modified)) ∧
    r.truncated = true := by
  intro files
  induction files with
  | nil =>
    intro s e r hr hm hs pre f n post hlog hn
    subst hr
    simp [syncFiles] at hlog
  | cons f0 rest ih =>
    intro s e r hr hm hs pre f n post hlog hn
    simp only [syncFiles] at hr
    split at hr
    · subst hr
      simp only at hlog
      match pre, hlog with
      | [], hlog =>
        simp only [List.nil_append, List.cons.injEq] at hlog
        obtain ⟨hfn, hpost⟩ := hlog
        obtain ⟨rfl, rfl⟩ := Prod.mk.injEq .. ▸ hfn
        exact ⟨hpost.symm, rfl, rfl, rfl⟩
      | p :: pre', hlog =>
        simp only [List.cons_append, List.cons.injEq] at hlog
        exact absurd hlog.2 (by simp)
    · next hbreak =>
      subst hr
      simp only at hlog
      have hfill := write_file_partial_fills f0.records maxR s hs
      match pre, hlog with
      | [], hlog =>
        simp only [List.nil_append, List.cons.injEq] at hlog
        obtain ⟨hfn, _⟩ := hlog
        have hf : f0 = f ∧ write_file f0.records (maxR - (s : Int)) = n := by
          exact ⟨congrArg Prod.fst hfn, congrArg Prod.snd hfn⟩
        obtain ⟨rfl, rfl⟩ := hf
        exact absurd ⟨hm, le_of_eq (hfill hn).symm⟩ hbreak
      | p :: pre', hlog =>
        simp only [List.cons_append, List.cons.injEq] at hlog
        obtain ⟨rfl, hlog'⟩ := hlog
        have hs' : ((s + write_file f0.records (maxR - (s : Int)) : Nat) : Int) < maxR := by
          rcases not_and_or.mp hbreak with h | h
          · exact absurd hm h
          · omega
        obtain ⟨hpost, hcps, hentry, htr⟩ :=
          ih (s + write_file f0.records (maxR - (s : Int))) (some f0.last_modified) _ rfl hm hs'
            pre' f n post hlog' hn
        refine ⟨hpost, ?_, ?_, htr⟩
        · simp only [List.map_cons, hcps]
        · simp only [List.map_cons, lastEntry, hentry]


/-- Core fact behind claim C2 (amended): if the loop's log contains a file
and the cumulative record count up to and including it stays strictly below
the budget (or the budget is non-positive, i.e. unbounded), then that file
streamed to completion and its last-modified stamp was checkpointed at its
position, right after its records and before any later file's messages. -/
theorem syncFiles_checkpoint_of_complete (maxR : Int) (ver : Option Nat) :
    ∀ (files : List TFile) (s : Nat) (e : Option Nat) (r : RunResult),
    syncFiles maxR ver files s e = r → (maxR ≤ 0 ∨ (s : Int) < maxR) →
    ∀ pre f n post, r.log = pre ++ (f, n) :: post →
    (maxR ≤ 0 ∨ ((s + sumEmit pre + n : Nat) : Int) < maxR) →
    n = f.records ∧
    r.cps.take (pre.length + 1) = (pre ++ [(f, n)]).map (fun p => p.1.last_modified) ∧
    ∃ t, r.msgs = tracePre ver pre ++ fileRecords f n ver ++
        Msg.stateWrite f.last_modified :: t := by
  intro files
  induction files with
  | nil =>
    intro s e r hr hs pre f n post hlog hunder
    subst hr
    simp [syncFiles] at hlog
  | cons f0 rest ih =>
    intro s e r hr hs pre f n post hlog hunder
    simp only [syncFiles] at hr
    split at hr
    · next hbreak =>
      subst hr
      simp only at hlog
      cases pre with
      | nil =>
        simp only [List.nil_append, List.cons.injEq, Prod.mk.injEq] at hlog
        obtain ⟨⟨rfl, rfl⟩, _⟩ := hlog
        simp only [sumEmit, List.map_nil, List.sum_nil, Nat.add_zero, Nat.zero_add] at hunder
        rcases hunder with h | h
        · exact absurd hbreak.1 (by omega)
        · exact absurd hbreak.2 (by omega)
      | cons p pre' =>
        simp only [List.cons_append, List.cons.injEq] at hlog
        exact absurd hlog.2 (by simp)
    · next hbreak =>
      subst hr
      simp only at hlog
      cases pre with
      | nil =>
        simp only [List.nil_append, List.cons.injEq, Prod.mk.injEq] at hlog
        obtain ⟨⟨rfl, rfl⟩, _⟩ := hlog
        simp only [sumEmit, List.map_nil, List.sum_nil, Nat.add_zero, Nat.zero_add] at hunder
        refine ⟨write_file_complete_of_under f0.records maxR s hunder, by simp, ?_⟩
        exact ⟨(syncFiles maxR ver rest (s + write_file f0.records (maxR - (s : Int)))
            (some f0.last_modified)).msgs, by simp [tracePre]⟩
      | cons p pre' =>
        simp only [List.cons_append, List.cons.injEq] at hlog
        obtain ⟨hp, hlog'⟩ := hlog
        have hs' : maxR ≤ 0 ∨
            ((s + write_file f0.records (maxR - (s : Int)) : Nat) : Int) < maxR := by
          rcases not_and_or.mp hbreak with h | h
          · left; omega
          · right; omega
        have hunder' : maxR ≤ 0 ∨
            ((s + write_file f0.records (maxR - (s : Int)) + sumEmit pre' + n : Nat) : Int) < maxR := by
          rcases hunder with h | h
          · exact Or.inl h
          · right
            rw [← hp] at h
            simp only [sumEmit, List.map_cons, List.sum_cons] at h ⊢
            omega
        obtain ⟨hcompl, hcps, t, hmsgs⟩ :=
          ih (s + write_file f0.records (maxR - (s : Int))) (some f0.last_modified) _ rfl hs'
            pre' f n post hlog' hunder'
        subst hp
        refine ⟨hcompl, ?_, ?_⟩
        · simp only [List.length_cons, List.take_succ_cons, List.map_cons, List.cons_append, hcps]
        · exact ⟨t, by simp [tracePre, hmsgs]⟩


/-- C1: during sync of a selected stream with a positive `max_records_per_run`,
a candidate file whose records were only partially emitted because the
per-run budget was reached mid-file is never checkpointed: the run stops for
the stream at that file (nothing follows it in the emission log), the state
writes are exactly the last-modified stamps of the earlier, fully-processed
files, and the stream's final state entry is the last of those earlier
checkpoints (or the incoming entry when there is none), never the truncated
file's stamp. -/
theorem C1_no_checkpoint_past_truncated_file
    (table_spec : Obj) (ftr : Bool) (maxR : Int) (start_date : Nat)
    (prev : Option Nat) (version : Nat) (catalog_schema : Obj) (allFiles : List TFile)
    (hmax : 0 < maxR)
    (pre : List (TFile × Nat)) (f : TFile) (n : Nat) (post : List (TFile × Nat))
    (hlog : (syncStream table_spec ftr maxR start_date prev version catalog_schema allFiles).2.log
        = pre ++ (f, n) :: post)
    (htrunc : n < f.records) :
    post = [] ∧
    (syncStream table_spec ftr maxR start_date prev version catalog_schema allFiles).2.cps
      = pre.map (fun p => p.1.last_modified) ∧
    (syncStream table_spec ftr maxR start_date prev version catalog_schema allFiles).2.entry
      = lastEntry prev (pre.map (fun p => p.1.last_modified)) ∧
    (syncStream table_spec ftr maxR start_date prev version catalog_schema allFiles).2.truncated
      = true := by
  exact syncFiles_truncation_stops_run maxR
    (if ftr then some version else none)
    (get_matching_objects allFiles (prev.getD start_date)) 0 prev _ rfl hmax
    (by exact_mod_cast hmax) pre f n post hlog htrunc

/-- Witness for C1 at a concrete run: budget 3, two candidate files with 2
and 5 records; the second file is truncated after 1 record, the run stops
there, only the first file is checkpointed, and the final state entry is the
first file's stamp. -/
theorem C1_witness :
    (0 : Int) < 3 ∧
    (syncStream [] false 3 0 none 0 [] [TFile.mk "a" 10 2, TFile.mk "b" 20 5]).2.log
      = [(TFile.mk "a" 10 2, 2)] ++ (TFile.mk "b" 20 5, 1) :: [] ∧
    1 < (TFile.mk "b" 20 5).records ∧
    (([] : List (TFile × Nat)) = [] ∧
     (syncStream [] false 3 0 none 0 [] [TFile.mk "a" 10 2, TFile.mk "b" 20 5]).2.cps
       = [(TFile.mk "a" 10 2, 2)].map (fun p => p.1.last_modified) ∧
     (syncStream [] false 3 0 none 0 [] [TFile.mk "a" 10 2, TFile.mk "b" 20 5]).2.entry
       = lastEntry none ([(TFile.mk "a" 10 2, 2)].map (fun p => p.1.last_modified)) ∧
     (syncStream [] false 3 0 none 0 [] [TFile.mk "a" 10 2, TFile.mk "b" 20 5]).2.truncated = true) :=
  ⟨by decide, rfl, by decide,
   C1_no_checkpoint_past_truncated_file [] false 3 0 none 0 [] [TFile.mk "a" 10 2, TFile.mk "b" 20 5]
     (by decide) [(TFile.mk "a" 10 2, 2)] (TFile.mk "b" 20 5) 1 [] rfl (by decide)⟩

/-- Counterexample to C2 as stated: a file whose records stream to completion
by consuming exactly the remaining budget (budget 5, file with exactly 5
records) is NOT checkpointed — the loop breaks before the state write, so no
state is written and the stream's entry stays at its incoming value instead
of advancing to the file's last-modified stamp. -/
theorem C2_counterexample :
    (syncStream [] false 5 0 none 0 [] [TFile.mk "x" 77 5]).2.log = [(TFile.mk "x" 77 5, 5)] ∧
    (TFile.mk "x" 77 5).records = 5 ∧
    (syncStream [] false 5 0 none 0 [] [TFile.mk "x" 77 5]).2.cps = [] ∧
    (syncStream [] false 5 0 none 0 [] [TFile.mk "x" 77 5]).2.entry = none ∧
    (syncStream [] false 5 0 none 0 [] [TFile.mk "x" 77 5]).2.entry ≠ some 77 := by
  refine ⟨rfl, rfl, rfl, rfl, ?_⟩
  decide

/-- C2 (amended): for every candidate file whose completion leaves the
cumulative record count strictly below the per-run budget (or when the
budget is non-positive, meaning unbounded), the stream's state entry is
advanced to that file's last-modified stamp and written, in file order,
right after the file's records and before any later file's messages.  A
file that completes by consuming exactly the remaining budget is excluded:
the loop breaks before the state write (see the counterexample). -/
theorem C2_checkpoint_after_completed_file
    (table_spec : Obj) (ftr : Bool) (maxR : Int) (start_date : Nat)
    (prev : Option Nat) (version : Nat) (catalog_schema : Obj) (allFiles : List TFile)
    (pre : List (TFile × Nat)) (f : TFile) (n : Nat) (post : List (TFile × Nat))
    (hlog : (syncStream table_spec ftr maxR start_date prev version catalog_schema allFiles).2.log
        = pre ++ (f, n) :: post)
    (hunder : maxR ≤ 0 ∨ ((sumEmit pre + n : Nat) : Int) < maxR) :
    n = f.records ∧
    (syncStream table_spec ftr maxR start_date prev version catalog_schema allFiles).2.cps.take
        (pre.length + 1)
      = (pre ++ [(f, n)]).map (fun p => p.1.last_modified) ∧
    ∃ t, (syncStream table_spec ftr maxR start_date prev version catalog_schema allFiles).2.msgs
      = tracePre (if ftr then some version else none) pre ++
        fileRecords f n (if ftr then some version else none) ++
        Msg.stateWrite f.last_modified :: t := by
  refine syncFiles_checkpoint_of_complete maxR
    (if ftr then some version else none)
    (get_matching_objects allFiles (prev.getD start_date)) 0 prev _ rfl ?_ pre f n post hlog ?_
  · rcases hunder with h | h
    · exact Or.inl h
    · right; omega
  · rcases hunder with h | h
    · exact Or.inl h
    · right
      simpa using h

/-- Witness for C2 (amended) at a concrete run: budget 15, first file has 10
records and completes with the count at 10 < 15, so its stamp is
checkpointed immediately after its records. -/
theorem C2_witness :
    ((syncStream [] false 15 0 none 0 [] [TFile.mk "a" 10 10, TFile.mk "b" 20 10]).2.log
       = [] ++ (TFile.mk "a" 10 10, 10) :: [(TFile.mk "b" 20 10, 5)] ∧
     ((15 : Int) ≤ 0 ∨ ((sumEmit [] + 10 : Nat) : Int) < 15)) ∧
    (10 = (TFile.mk "a" 10 10).records ∧
     (syncStream [] false 15 0 none 0 [] [TFile.mk "a" 10 10, TFile.mk "b" 20 10]).2.cps.take 1
       = (([] : List (TFile × Nat)) ++ [(TFile.mk "a" 10 10, 10)]).map (fun p : TFile × Nat => p.1.last_modified) ∧
     ∃ t, (syncStream [] false 15 0 none 0 [] [TFile.mk "a" 10 10, TFile.mk "b" 20 10]).2.msgs
       = tracePre none [] ++ fileRecords (TFile.mk "a" 10 10) 10 none ++
         Msg.stateWrite 10 :: t) :=
  ⟨⟨rfl, by right; decide⟩,
   C2_checkpoint_after_completed_file [] false 15 0 none 0 [] [TFile.mk "a" 10 10, TFile.mk "b" 20 10]
     [] (TFile.mk "a" 10 10) 10 [(TFile.mk "b" 20 10, 5)] rfl (by right; decide)⟩


/-- Counterexample to C3 as stated: in the scenario (start 2020-01-01, files
dated 2020-02-01 and 2020-03-01 with 10 records each, budget 15) the first
run emits 15 records but does NOT leave the persisted watermark at the
2020-01-01 start value: the first file completes under budget and is
checkpointed, so the stream's state entry advances to 2020-02-01 (dates
encoded as YYYYMMDD numbers). -/
theorem C3_counterexample :
    (syncStream [] false 15 20200101 none 0 []
        [TFile.mk "a" 20200201 10, TFile.mk "b" 20200301 10]).2.streamed = 15 ∧
    (syncStream [] false 15 20200101 none 0 []
        [TFile.mk "a" 20200201 10, TFile.mk "b" 20200301 10]).2.entry = some 20200201 ∧
    (syncStream [] false 15 20200101 none 0 []
        [TFile.mk "a" 20200201 10, TFile.mk "b" 20200301 10]).2.entry ≠ some 20200101 ∧
    (syncStream [] false 15 20200101 none 0 []
        [TFile.mk "a" 20200201 10, TFile.mk "b" 20200301 10]).2.entry ≠ none := by
  refine ⟨rfl, rfl, by decide, by decide⟩

/-- C3 (amended): in the scenario the first run emits exactly 15 records
(all 10 of the first file, 5 of the second), checkpoints the completed first
file so the persisted watermark advances to 2020-02-01 (not the 2020-01-01
start value), and stops budget-truncated mid-second-file without
checkpointing it; the next run selects only the second file, re-emits all 10
of its records from the start (at-least-once delivery), and advances the
watermark to 2020-03-01. -/
theorem C3_scenario_budget_resume :
    (syncStream [] false 15 20200101 none 0 []
        [TFile.mk "a" 20200201 10, TFile.mk "b" 20200301 10]).2.streamed = 15 ∧
    (syncStream [] false 15 20200101 none 0 []
        [TFile.mk "a" 20200201 10, TFile.mk "b" 20200301 10]).2.log
      = [(TFile.mk "a" 20200201 10, 10), (TFile.mk "b" 20200301 10, 5)] ∧
    (syncStream [] false 15 20200101 none 0 []
        [TFile.mk "a" 20200201 10, TFile.mk "b" 20200301 10]).2.cps = [20200201] ∧
    (syncStream [] false 15 20200101 none 0 []
        [TFile.mk "a" 20200201 10, TFile.mk "b" 20200301 10]).2.entry = some 20200201 ∧
    (syncStream [] false 15 20200101 none 0 []
        [TFile.mk "a" 20200201 10, TFile.mk "b" 20200301 10]).2.truncated = true ∧
    get_matching_objects [TFile.mk "a" 20200201 10, TFile.mk "b" 20200301 10] 20200201
      = [TFile.mk "b" 20200301 10] ∧
    (syncStream [] false 15 20200101 (some 20200201) 0 []
        [TFile.mk "a" 20200201 10, TFile.mk "b" 20200301 10]).2.log
      = [(TFile.mk "b" 20200301 10, 10)] ∧
    (syncStream [] false 15 20200101 (some 20200201) 0 []
        [TFile.mk "a" 20200201 10, TFile.mk "b" 20200301 10]).2.streamed = 10 ∧
    (syncStream [] false 15 20200101 (some 20200201) 0 []
        [TFile.mk "a" 20200201 10, TFile.mk "b" 20200301 10]).2.entry = some 20200301 := by
  refine ⟨rfl, rfl, rfl, rfl, rfl, rfl, rfl, rfl, rfl⟩


lemma syncStream_trace_shape (ts : Obj) (ftr : Bool) (maxR : Int) (sd : Nat)
    (prev : Option Nat) (v : Nat) (cs : Obj) (files : List TFile) :
    (syncStream ts ftr maxR sd prev v cs files).1 =
      Msg.schemaMsg (override_schema_with_config cs ts) ::
        ((if ftr && prev.isNone then [Msg.activate v] else []) ++
         (syncFiles maxR (if ftr then some v else none)
            (get_matching_objects files (prev.getD sd)) 0 prev).msgs ++
         (if ftr then [Msg.activate v] else [])) := rfl

lemma countActivate_syncStream_ftr (ts : Obj) (maxR : Int) (sd : Nat)
    (prev : Option Nat) (v : Nat) (cs : Obj) (files : List TFile) :
    countActivate (syncStream ts true maxR sd prev v cs files).1 =
      if prev.isNone then 2 else 1 := by
  have h0 := countActivate_syncFiles maxR (some v)
    (get_matching_objects files (prev.getD sd)) 0 prev
  simp only [countActivate] at h0 ⊢
  rw [syncStream_trace_shape]
  cases prev with
  | none =>
    simp only [Option.getD_none] at h0
    simp [List.countP_cons, List.countP_append, isActivate, h0]
  | some w =>
    simp only [Option.getD_some] at h0
    simp [List.countP_cons, List.countP_append, isActivate, h0]

lemma countActivate_syncStream_not_ftr (ts : Obj) (maxR : Int) (sd : Nat)
    (prev : Option Nat) (v : Nat) (cs : Obj) (files : List TFile) :
    countActivate (syncStream ts false maxR sd prev v cs files).1 = 0 := by
  have h0 := countActivate_syncFiles maxR none
    (get_matching_objects files (prev.getD sd)) 0 prev
  simp only [countActivate] at h0 ⊢
  rw [syncStream_trace_shape]
  simp [List.countP_cons, List.countP_append, isActivate, h0]

lemma syncStream_ftr_ends_with_activate (ts : Obj) (maxR : Int) (sd : Nat)
    (prev : Option Nat) (v : Nat) (cs : Obj) (files : List TFile) :
    ∃ t, (syncStream ts true maxR sd prev v cs files).1 = t ++ [Msg.activate v] := by
  refine ⟨Msg.schemaMsg (override_schema_with_config cs ts) ::
    ((if prev.isNone then [Msg.activate v] else []) ++
     (syncFiles maxR (some v) (get_matching_objects files (prev.getD sd)) 0 prev).msgs), ?_⟩
  rw [syncStream_trace_shape]
  simp [List.append_assoc]

lemma syncStream_cps_ne_nil_entry_isSome (ts : Obj) (ftr : Bool) (maxR : Int) (sd : Nat)
    (prev : Option Nat) (v : Nat) (cs : Obj) (files : List TFile)
    (h : (syncStream ts ftr maxR sd prev v cs files).2.cps ≠ []) :
    ((syncStream ts ftr maxR sd prev v cs files).2.entry).isSome = true := by
  have he := syncFiles_entry_eq_lastEntry maxR (if ftr then some v else none)
    (get_matching_objects files (prev.getD sd)) 0 prev
  have hcps : (syncStream ts ftr maxR sd prev v cs files).2.cps =
      (syncFiles maxR (if ftr then some v else none)
        (get_matching_objects files (prev.getD sd)) 0 prev).cps := rfl
  have hent : (syncStream ts ftr maxR sd prev v cs files).2.entry =
      (syncFiles maxR (if ftr then some v else none)
        (get_matching_objects files (prev.getD sd)) 0 prev).entry := rfl
  rw [hcps] at h
  rw [hent, he]
  cases hc : (syncFiles maxR (if ftr then some v else none)
      (get_matching_objects files (prev.getD sd)) 0 prev).cps with
  | nil => exact absurd hc h
  | cons c rest => exact lastEntry_isSome c rest

/-- Counterexample to C4 as stated: a full-table-replace run over an
unchanged dataset (the only file's timestamp 3 is not past the watermark 5,
so no files qualify) still emits one ActivateVersion signal, where the claim
requires none; and a budget-truncated run (budget 4, file with 10 records)
also still emits the end-of-run ActivateVersion signal, where the claim
requires it to be suppressed. -/
theorem C4_counterexample :
    get_matching_objects [TFile.mk "a" 3 7] 5 = [] ∧
    countActivate (syncStream [] true (-1) 0 (some 5) 99 [] [TFile.mk "a" 3 7]).1 = 1 ∧
    (syncStream [] true 4 0 (some 5) 99 [] [TFile.mk "a" 10 10]).2.truncated = true ∧
    countActivate (syncStream [] true 4 0 (some 5) 99 [] [TFile.mk "a" 10 10]).1 = 1 :=
  ⟨rfl, rfl, rfl, rfl⟩

/-- C4 (amended): for a full-table-replace stream with a config block, every
run emits the end-epoch ActivateVersion signal exactly once, as the final
message of the stream's trace — including budget-truncated runs and runs
where no candidate files qualify; the total number of ActivateVersion
signals in a run's trace is two on a first-ever sync (begin plus end) and
one otherwise; a stream not configured for full-table-replace emits none. -/
theorem C4_end_epoch_every_run (ts : Obj) (maxR : Int) (sd : Nat)
    (prev : Option Nat) (v : Nat) (cs : Obj) (files : List TFile) :
    (∃ t, (syncStream ts true maxR sd prev v cs files).1 = t ++ [Msg.activate v]) ∧
    countActivate (syncStream ts true maxR sd prev v cs files).1 =
      (if prev.isNone then 2 else 1) ∧
    countActivate (syncStream ts false maxR sd prev v cs files).1 = 0 :=
  ⟨syncStream_ftr_ends_with_activate ts maxR sd prev v cs files,
   countActivate_syncStream_ftr ts maxR sd prev v cs files,
   countActivate_syncStream_not_ftr ts maxR sd prev v cs files⟩

/-- Counterexample to C5 as stated: a full-table-replace table whose
first-ever run finds no qualifying files emits the begin-epoch signal but
persists no `modified_since`, so the next run is again treated as an initial
sync and re-emits the begin-epoch signal — twice in one table lifetime,
where the claim requires exactly once. -/
theorem C5_counterexample :
    (syncStream [] true (-1) 0 none 7 [] []).1 =
      [Msg.schemaMsg [("properties", JVal.obj []), ("selected", JVal.bool true)],
       Msg.activate 7, Msg.activate 7] ∧
    (syncStream [] true (-1) 0 none 7 [] []).2.entry = none ∧
    (syncStream [] true (-1) 0 none 8 [] []).1 =
      [Msg.schemaMsg [("properties", JVal.obj []), ("selected", JVal.bool true)],
       Msg.activate 8, Msg.activate 8] :=
  ⟨rfl, rfl, rfl⟩

/-- C5 (amended): for a full-table-replace stream, the begin-epoch
ActivateVersion signal is emitted (immediately after the schema message and
before any record) exactly on runs with no persisted `modified_since`; a run
that starts with persisted `modified_since` emits exactly one ActivateVersion
signal and it is the trace's final message (the end-epoch signal), so begin
is never re-emitted then; and once a run checkpoints at least one file, the
stream's entry is persisted, so the next run emits only the single terminal
signal. Begin-epoch is NOT emitted exactly once per table lifetime: a
first-ever run that checkpoints no file re-emits it (see the
counterexample). -/
theorem C5_begin_epoch_only_without_state (ts : Obj) (maxR : Int) (sd : Nat)
    (prev : Option Nat) (v : Nat) (cs : Obj) (files : List TFile)
    (ts2 : Obj) (maxR2 : Int) (sd2 : Nat) (v2 : Nat) (cs2 : Obj) (files2 : List TFile) :
    (prev = none → ∃ rest, (syncStream ts true maxR sd prev v cs files).1 =
      Msg.schemaMsg (override_schema_with_config cs ts) :: Msg.activate v :: rest) ∧
    (∀ w, prev = some w →
      countActivate (syncStream ts true maxR sd prev v cs files).1 = 1 ∧
      ∃ t, (syncStream ts true maxR sd prev v cs files).1 = t ++ [Msg.activate v]) ∧
    ((syncStream ts true maxR sd prev v cs files).2.cps ≠ [] →
      countActivate (syncStream ts2 true maxR2 sd2
        (syncStream ts true maxR sd prev v cs files).2.entry v2 cs2 files2).1 = 1) := by
  refine ⟨?_, ?_, ?_⟩
  · rintro rfl
    exact ⟨(syncFiles maxR (some v) (get_matching_objects files sd) 0 none).msgs ++
      [Msg.activate v], by rw [syncStream_trace_shape]; simp⟩
  · rintro w rfl
    refine ⟨?_, syncStream_ftr_ends_with_activate ts maxR sd (some w) v cs files⟩
    rw [countActivate_syncStream_ftr]
    rfl
  · intro hcps
    have hsome := syncStream_cps_ne_nil_entry_isSome ts true maxR sd prev v cs files hcps
    rw [countActivate_syncStream_ftr]
    cases hF : (syncStream ts true maxR sd prev v cs files).2.entry with
    | none => rw [hF] at hsome; exact absurd hsome (by simp)
    | some w => rfl

/-- Witness for C5 (amended): the initial-run conjunct at a concrete
first-ever sync, the persisted-state conjunct at a concrete subsequent run,
and the two-run conjunct at a concrete run that checkpoints one file. -/
theorem C5_witness :
    ((none : Option Nat) = none ∧
     ∃ rest, (syncStream [] true (-1) 0 none 7 [] [TFile.mk "a" 10 3]).1 =
       Msg.schemaMsg (override_schema_with_config [] []) :: Msg.activate 7 :: rest) ∧
    ((some 4 : Option Nat) = some 4 ∧
     countActivate (syncStream [] true (-1) 0 (some 4) 7 [] [TFile.mk "a" 10 3]).1 = 1) ∧
    ((syncStream [] true (-1) 0 none 7 [] [TFile.mk "a" 10 3]).2.cps ≠ [] ∧
     countActivate (syncStream [] true (-1) 0
       (syncStream [] true (-1) 0 none 7 [] [TFile.mk "a" 10 3]).2.entry 9 [] []).1 = 1) :=
  ⟨⟨rfl, (C5_begin_epoch_only_without_state [] (-1) 0 none 7 [] [TFile.mk "a" 10 3]
      [] (-1) 0 9 [] []).1 rfl⟩,
   ⟨rfl, ((C5_begin_epoch_only_without_state [] (-1) 0 (some 4) 7 [] [TFile.mk "a" 10 3]
      [] (-1) 0 9 [] []).2.1 4 rfl).1⟩,
   ⟨by decide, (C5_begin_epoch_only_without_state [] (-1) 0 none 7 [] [TFile.mk "a" 10 3]
      [] (-1) 0 9 [] []).2.2 (by decide)⟩⟩


lemma hasKey_false_lookupD (k : String) :
    ∀ (d : Obj), hasKey d k = false → lookupD d k = none := by
  intro d
  induction d with
  | nil => intro _; rfl
  | cons p rest ih =>
    intro h
    simp only [hasKey, Bool.or_eq_false_iff] at h
    obtain ⟨h1, h2⟩ := h
    have h1' : ¬(p.1 = k) := by simpa using h1
    simp only [lookupD]
    rw [if_neg h1']
    exact ih h2

lemma hasKey_iff_mem (k : String) :
    ∀ (d : Obj), hasKey d k = true ↔ k ∈ d.map (fun p => p.1) := by
  intro d
  induction d with
  | nil => simp [hasKey]
  | cons p rest ih =>
    simp only [hasKey, List.map_cons, List.mem_cons, Bool.or_eq_true, ih]
    constructor
    · rintro (h | h)
      · exact Or.inl (of_decide_eq_true h).symm
      · exact Or.inr h
    · rintro (h | h)
      · exact Or.inl (decide_eq_true h.symm)
      · exact Or.inr h

lemma lookupD_setKey_self (k : String) (v : JVal) :
    ∀ (d : Obj), lookupD (setKey d k v) k = some v := by
  intro d
  induction d with
  | nil => simp [setKey, lookupD]
  | cons p rest ih =>
    obtain ⟨k', v'⟩ := p
    by_cases hk : k' = k
    · simp [setKey, if_pos hk, lookupD, hk]
    · simp only [setKey, if_neg hk, lookupD]
      exact ih

lemma lookupD_setKey_ne (k k' : String) (v : JVal) (hne : k' ≠ k) :
    ∀ (d : Obj), lookupD (setKey d k v) k' = lookupD d k' := by
  intro d
  induction d with
  | nil =>
    simp only [setKey, lookupD]
    rw [if_neg (fun e => hne e.symm)]
  | cons p rest ih =>
    obtain ⟨k₀, v₀⟩ := p
    by_cases hk : k₀ = k
    · simp only [setKey, if_pos hk, lookupD]
      rw [if_neg (by rw [hk]; exact fun e => hne e.symm),
          if_neg (by rw [hk]; exact fun e => hne e.symm)]
    · simp only [setKey, if_neg hk, lookupD]
      by_cases hk' : k₀ = k'
      · rw [if_pos hk', if_pos hk']
      · rw [if_neg hk', if_neg hk']
        exact ih

lemma hasKey_setKey (k k₀ : String) (v : JVal) :
    ∀ (d : Obj), hasKey (setKey d k₀ v) k = (hasKey d k || decide (k₀ = k)) := by
  intro d
  induction d with
  | nil => simp [setKey, hasKey]
  | cons p rest ih =>
    obtain ⟨k', v'⟩ := p
    by_cases hk : k' = k₀
    · subst hk
      simp only [setKey, if_pos rfl, hasKey]
      by_cases hkk : k' = k
      · simp [hkk]
      · simp [hkk]
    · simp only [setKey, if_neg hk, hasKey, ih]
      rw [Bool.or_assoc]


lemma lookupD_mergeLoop_not_has (first : Obj) (k : String) :
    ∀ (l : List (String × JVal)) (acc : Obj), hasKey l k = false →
    lookupD (mergeLoop first acc l) k = lookupD acc k := by
  intro l
  induction l with
  | nil => intro acc _; rfl
  | cons p rest ih =>
    intro acc h
    obtain ⟨k₀, v₀⟩ := p
    simp only [hasKey, Bool.or_eq_false_iff] at h
    obtain ⟨h1, h2⟩ := h
    have h1' : ¬(k₀ = k) := by simpa using h1
    simp only [mergeLoop]
    rw [ih _ h2]
    exact lookupD_setKey_ne k₀ k _ (fun e => h1' e.symm) acc

lemma hasKey_mergeLoop (first : Obj) (k : String) :
    ∀ (l : List (String × JVal)) (acc : Obj),
    hasKey (mergeLoop first acc l) k = (hasKey acc k || hasKey l k) := by
  intro l
  induction l with
  | nil => intro acc; simp [mergeLoop, hasKey]
  | cons p rest ih =>
    intro acc
    obtain ⟨k₀, v₀⟩ := p
    simp only [mergeLoop, ih, hasKey_setKey, hasKey, Bool.or_assoc]

/-- The main lookup characterization of the `merge_dicts` loop: over a
dict-like second operand (no duplicate keys), a key of `second` maps to the
merged value and every other key keeps its value from the accumulator. -/
lemma lookupD_mergeLoop (first : Obj) :
    ∀ (l : List (String × JVal)) (acc : Obj), keyNodup l → ∀ (k : String),
    lookupD (mergeLoop first acc l) k =
      (match lookupD l k with
       | none => lookupD acc k
       | some v => some (mergeVal (lookupD first k) v)) := by
  intro l
  induction l with
  | nil => intro acc _ k; rfl
  | cons p rest ih =>
    intro acc hnd k
    obtain ⟨k₀, v₀⟩ := p
    simp only [keyNodup, List.map_cons, List.nodup_cons] at hnd
    obtain ⟨hmem, hnd'⟩ := hnd
    by_cases hk : k₀ = k
    · subst hk
      have hrest : hasKey rest k₀ = false := by
        rw [← Bool.not_eq_true, hasKey_iff_mem]
        exact hmem
      simp only [mergeLoop]
      rw [lookupD_mergeLoop_not_has first k₀ rest _ hrest, lookupD_setKey_self]
      simp [lookupD]
    · simp only [mergeLoop, lookupD]
      rw [ih _ hnd' k]
      cases hrk : lookupD rest k with
      | none =>
        simp only [if_neg hk]
        exact lookupD_setKey_ne k₀ k _ (fun e => hk e.symm) acc
      | some v =>
        simp only [if_neg hk]

lemma mergeVal_some_eq (vf vs : JVal) :
    mergeVal (some vf) vs =
      (match vf, vs with
       | JVal.obj a, JVal.obj b => JVal.obj (merge_dicts a b)
       | _, _ => vs) := by
  cases vs <;> cases vf <;> rfl

lemma mergeVal_not_obj (o : Option JVal) (v : JVal) (h : isObjVal v = false) :
    mergeVal o v = v := by
  cases v with
  | obj kvs => simp [isObjVal] at h
  | str s => rfl
  | bool b => rfl
  | int i => rfl
  | arr l => rfl


/-- C10: `merge_dicts(first, second)` returns a dict whose key set is the
union of the two key sets; a key present in both maps to the recursive merge
when both values are dicts and to `second`'s value otherwise; a key present
in only one input keeps that input's value unchanged.  (The function also
mutates neither argument: the embedding is a pure function of both, mirroring
the source, which writes only into `first.copy()`.) -/
theorem C10_merge_dicts_characterization (first second : Obj)
    (hs : keyNodup second) :
    (∀ k, hasKey (merge_dicts first second) k = (hasKey first k || hasKey second k)) ∧
    (∀ k vf vs, lookupD first k = some vf → lookupD second k = some vs →
      lookupD (merge_dicts first second) k =
        some (match vf, vs with
          | JVal.obj a, JVal.obj b => JVal.obj (merge_dicts a b)
          | _, _ => vs)) ∧
    (∀ k vf, lookupD first k = some vf → lookupD second k = none →
      lookupD (merge_dicts first second) k = some vf) ∧
    (∀ k vs, lookupD first k = none → lookupD second k = some vs →
      lookupD (merge_dicts first second) k = some vs) := by
  refine ⟨?_, ?_, ?_, ?_⟩
  · intro k
    exact hasKey_mergeLoop first k second first
  · intro k vf vs hf hsv
    have base : lookupD (merge_dicts first second) k =
        (match lookupD second k with
         | none => lookupD first k
         | some v => some (mergeVal (lookupD first k) v)) :=
      lookupD_mergeLoop first second first hs k
    rw [base, hsv]
    simp only [hf, mergeVal_some_eq]
  · intro k vf hf hsv
    have base : lookupD (merge_dicts first second) k =
        (match lookupD second k with
         | none => lookupD first k
         | some v => some (mergeVal (lookupD first k) v)) :=
      lookupD_mergeLoop first second first hs k
    rw [base, hsv]
    exact hf
  · intro k vs hf hsv
    have base : lookupD (merge_dicts first second) k =
        (match lookupD second k with
         | none => lookupD first k
         | some v => some (mergeVal (lookupD first k) v)) :=
      lookupD_mergeLoop first second first hs k
    rw [base, hsv, hf]
    cases vs <;> rfl

/-- Witness for C10 at concrete dicts: a key in both with dict values merges
recursively, a key in both with non-dict values takes the second's value, a
key only in the first keeps its value, and a key only in the second is
appended. -/
theorem C10_witness :
    keyNodup [("b", JVal.obj [("y", JVal.int 2)]), ("c", JVal.int 9), ("d", JVal.bool true)] ∧
    hasKey (merge_dicts
        [("a", JVal.int 1), ("b", JVal.obj [("x", JVal.int 1)]), ("c", JVal.str "s")]
        [("b", JVal.obj [("y", JVal.int 2)]), ("c", JVal.int 9), ("d", JVal.bool true)]) "d"
      = (hasKey [("a", JVal.int 1), ("b", JVal.obj [("x", JVal.int 1)]), ("c", JVal.str "s")] "d"
         || hasKey [("b", JVal.obj [("y", JVal.int 2)]), ("c", JVal.int 9), ("d", JVal.bool true)] "d") ∧
    lookupD (merge_dicts
        [("a", JVal.int 1), ("b", JVal.obj [("x", JVal.int 1)]), ("c", JVal.str "s")]
        [("b", JVal.obj [("y", JVal.int 2)]), ("c", JVal.int 9), ("d", JVal.bool true)]) "b"
      = some (JVal.obj (merge_dicts [("x", JVal.int 1)] [("y", JVal.int 2)])) ∧
    lookupD (merge_dicts
        [("a", JVal.int 1), ("b", JVal.obj [("x", JVal.int 1)]), ("c", JVal.str "s")]
        [("b", JVal.obj [("y", JVal.int 2)]), ("c", JVal.int 9), ("d", JVal.bool true)]) "c"
      = some (JVal.int 9) ∧
    lookupD (merge_dicts
        [("a", JVal.int 1), ("b", JVal.obj [("x", JVal.int 1)]), ("c", JVal.str "s")]
        [("b", JVal.obj [("y", JVal.int 2)]), ("c", JVal.int 9), ("d", JVal.bool true)]) "a"
      = some (JVal.int 1) :=
  ⟨by simp [keyNodup],
   (C10_merge_dicts_characterization _ _ (by simp [keyNodup])).1 "d",
   (C10_merge_dicts_characterization _ _ (by simp [keyNodup])).2.1 "b"
     (JVal.obj [("x", JVal.int 1)]) (JVal.obj [("y", JVal.int 2)]) rfl rfl,
   (C10_merge_dicts_characterization _ _ (by simp [keyNodup])).2.1 "c"
     (JVal.str "s") (JVal.int 9) rfl rfl,
   (C10_merge_dicts_characterization _ _ (by simp [keyNodup])).2.2.1 "a"
     (JVal.int 1) rfl rfl⟩

/-- C6: `override_schema_with_config` merges the inferred schema with the
config overrides: the result's `properties` is the recursive merge of the
inferred properties with `schema_overrides`; a field not mentioned in the
overrides passes through unchanged; for every field in the overrides, the
declared `type` replaces the inferred one in the result, whatever the
inferred type was; the result's `selected` flag is the table's `selected`
value when present and `true` otherwise; and this same merge is applied both
by discovery (inside `buildEntry`) and again at the start of every sync (the
stream's schema message). -/
theorem C6_override_schema_merge
    (inferred_schema table_spec : Obj) (props ov : Obj)
    (hprops : lookupD inferred_schema "properties" = some (JVal.obj props))
    (hov : lookupD table_spec "schema_overrides" = some (JVal.obj ov))
    (hnd : keyNodup ov)
    (hsel : isObjVal ((lookupD table_spec "selected").getD (JVal.bool true)) = false) :
    lookupD (override_schema_with_config inferred_schema table_spec) "properties"
      = some (JVal.obj (merge_dicts props ov)) ∧
    (∀ fn, lookupD ov fn = none →
      lookupD (merge_dicts props ov) fn = lookupD props fn) ∧
    (∀ fn fv T, lookupD ov fn = some (JVal.obj fv) → keyNodup fv →
      lookupD fv "type" = some T → isObjVal T = false →
      ∃ rv : Obj, lookupD (merge_dicts props ov) fn = some (JVal.obj rv) ∧
        lookupD rv "type" = some T) ∧
    lookupD (override_schema_with_config inferred_schema table_spec) "selected"
      = some ((lookupD table_spec "selected").getD (JVal.bool true)) ∧
    (∀ ftr maxR sd prev v files,
      ((syncStream table_spec ftr maxR sd prev v inferred_schema files).1).head?
        = some (Msg.schemaMsg (override_schema_with_config inferred_schema table_spec))) ∧
    (∀ c e, buildEntry c table_spec = Except.ok e →
      ∃ inf, e.schema = override_schema_with_config inf table_spec) := by
  have hnd2 : keyNodup
      [("properties", (lookupD table_spec "schema_overrides").getD (JVal.obj [])),
       ("selected", (lookupD table_spec "selected").getD (JVal.bool true))] := by
    simp [keyNodup]
  have baseTop : ∀ k : String,
      lookupD (override_schema_with_config inferred_schema table_spec) k =
        (match lookupD
            [("properties", (lookupD table_spec "schema_overrides").getD (JVal.obj [])),
             ("selected", (lookupD table_spec "selected").getD (JVal.bool true))] k with
         | none => lookupD inferred_schema k
         | some v => some (mergeVal (lookupD inferred_schema k) v)) :=
    fun k => lookupD_mergeLoop inferred_schema _ inferred_schema hnd2 k
  refine ⟨?_, ?_, ?_, ?_, ?_, ?_⟩
  · rw [baseTop "properties"]
    simp only [lookupD, if_pos rfl, hov, Option.getD_some, hprops, mergeVal_some_eq]
    simp
  · intro fn hfn
    have base : lookupD (merge_dicts props ov) fn =
        (match lookupD ov fn with
         | none => lookupD props fn
         | some v => some (mergeVal (lookupD props fn) v)) :=
      lookupD_mergeLoop props ov props hnd fn
    rw [base, hfn]
  · intro fn fv T hfn hndfv hT hTobj
    have base : lookupD (merge_dicts props ov) fn =
        (match lookupD ov fn with
         | none => lookupD props fn
         | some v => some (mergeVal (lookupD props fn) v)) :=
      lookupD_mergeLoop props ov props hnd fn
    rw [base, hfn]
    cases hp : lookupD props fn with
    | none =>
      refine ⟨fv, ?_, hT⟩
      simp [mergeVal]
    | some pv =>
      cases pv with
      | obj pk =>
        refine ⟨merge_dicts pk fv, rfl, ?_⟩
        have base2 : lookupD (merge_dicts pk fv) "type" =
            (match lookupD fv "type" with
             | none => lookupD pk "type"
             | some v => some (mergeVal (lookupD pk "type") v)) :=
          lookupD_mergeLoop pk fv pk hndfv "type"
        rw [base2, hT]
        simp only [mergeVal_not_obj _ _ hTobj]
      | str sv => exact ⟨fv, rfl, hT⟩
      | bool bv => exact ⟨fv, rfl, hT⟩
      | int iv => exact ⟨fv, rfl, hT⟩
      | arr av => exact ⟨fv, rfl, hT⟩
  · rw [baseTop "selected"]
    have hne : ¬("properties" = "selected") := by decide
    simp only [lookupD, if_neg hne, if_pos rfl]
    simp [mergeVal_not_obj _ _ hsel]
  · intro ftr maxR sd prev v files
    rfl
  · intro c e h
    unfold buildEntry at h
    cases h1 : getStr table_spec "start_date" with
    | error err => simp only [h1] at h; exact Except.noConfusion h
    | ok sd =>
      simp only [h1] at h
      cases h2 : c.parseDate sd with
      | error err => simp only [h2] at h; exact Except.noConfusion h
      | ok ms =>
        simp only [h2] at h
        cases h3 : c.getMatching table_spec ms with
        | error err => simp only [h3] at h; exact Except.noConfusion h
        | ok tf =>
          simp only [h3] at h
          cases h4 : c.sampleFiles table_spec tf with
          | error err => simp only [h4] at h; exact Except.noConfusion h
          | ok samples =>
            simp only [h4] at h
            cases h5 : c.generateSchema samples with
            | error err => simp only [h5] at h; exact Except.noConfusion h
            | ok data_schema =>
              simp only [h5] at h
              cases h6 : getName table_spec with
              | error err => simp only [h6] at h; exact Except.noConfusion h
              | ok name =>
                simp only [h6] at h
                cases h
                exact ⟨[("type", JVal.str "object"),
                  ("properties", JVal.obj (merge_dicts data_schema metadata_schema))], rfl⟩


/-- Witness for C6 at a concrete inferred schema and table spec: the
override's declared `integer` replaces the inferred `string` for field `id`,
field `other` passes through unchanged, and `selected` comes from the table
spec (`false`). -/
theorem C6_witness :
    lookupD (override_schema_with_config
        [("type", JVal.str "object"),
         ("properties", JVal.obj [("id", JVal.obj [("type", JVal.str "string")]),
                                  ("other", JVal.obj [("type", JVal.str "number")])])]
        [("name", JVal.str "t"),
         ("schema_overrides", JVal.obj [("id", JVal.obj [("type", JVal.str "integer")])]),
         ("selected", JVal.bool false)]) "properties"
      = some (JVal.obj (merge_dicts
          [("id", JVal.obj [("type", JVal.str "string")]),
           ("other", JVal.obj [("type", JVal.str "number")])]
          [("id", JVal.obj [("type", JVal.str "integer")])])) ∧
    lookupD (merge_dicts
        [("id", JVal.obj [("type", JVal.str "string")]),
         ("other", JVal.obj [("type", JVal.str "number")])]
        [("id", JVal.obj [("type", JVal.str "integer")])]) "other"
      = lookupD [("id", JVal.obj [("type", JVal.str "string")]),
                 ("other", JVal.obj [("type", JVal.str "number")])] "other" ∧
    (∃ rv : Obj, lookupD (merge_dicts
        [("id", JVal.obj [("type", JVal.str "string")]),
         ("other", JVal.obj [("type", JVal.str "number")])]
        [("id", JVal.obj [("type", JVal.str "integer")])]) "id"
      = some (JVal.obj rv) ∧ lookupD rv "type" = some (JVal.str "integer")) ∧
    lookupD (override_schema_with_config
        [("type", JVal.str "object"),
         ("properties", JVal.obj [("id", JVal.obj [("type", JVal.str "string")]),
                                  ("other", JVal.obj [("type", JVal.str "number")])])]
        [("name", JVal.str "t"),
         ("schema_overrides", JVal.obj [("id", JVal.obj [("type", JVal.str "integer")])]),
         ("selected", JVal.bool false)]) "selected"
      = some (JVal.bool false) :=
  ⟨(C6_override_schema_merge
      [("type", JVal.str "object"),
       ("properties", JVal.obj [("id", JVal.obj [("type", JVal.str "string")]),
                                ("other", JVal.obj [("type", JVal.str "number")])])]
      [("name", JVal.str "t"),
       ("schema_overrides", JVal.obj [("id", JVal.obj [("type", JVal.str "integer")])]),
       ("selected", JVal.bool false)]
      [("id", JVal.obj [("type", JVal.str "string")]),
       ("other", JVal.obj [("type", JVal.str "number")])]
      [("id", JVal.obj [("type", JVal.str "integer")])]
      rfl rfl (by simp [keyNodup]) rfl).1,
   (C6_override_schema_merge
      [("type", JVal.str "object"),
       ("properties", JVal.obj [("id", JVal.obj [("type", JVal.str "string")]),
                                ("other", JVal.obj [("type", JVal.str "number")])])]
      [("name", JVal.str "t"),
       ("schema_overrides", JVal.obj [("id", JVal.obj [("type", JVal.str "integer")])]),
       ("selected", JVal.bool false)]
      [("id", JVal.obj [("type", JVal.str "string")]),
       ("other", JVal.obj [("type", JVal.str "number")])]
      [("id", JVal.obj [("type", JVal.str "integer")])] rfl rfl
      (by simp [keyNodup]) rfl).2.1 "other" rfl,
   (C6_override_schema_merge
      [("type", JVal.str "object"),
       ("properties", JVal.obj [("id", JVal.obj [("type", JVal.str "string")]),
                                ("other", JVal.obj [("type", JVal.str "number")])])]
      [("name", JVal.str "t"),
       ("schema_overrides", JVal.obj [("id", JVal.obj [("type", JVal.str "integer")])]),
       ("selected", JVal.bool false)]
      [("id", JVal.obj [("type", JVal.str "string")]),
       ("other", JVal.obj [("type", JVal.str "number")])]
      [("id", JVal.obj [("type", JVal.str "integer")])] rfl rfl (by simp [keyNodup]) rfl).2.2.1
     "id" [("type", JVal.str "integer")] (JVal.str "integer") rfl (by simp [keyNodup]) rfl rfl,
   (C6_override_schema_merge
      [("type", JVal.str "object"),
       ("properties", JVal.obj [("id", JVal.obj [("type", JVal.str "string")]),
                                ("other", JVal.obj [("type", JVal.str "number")])])]
      [("name", JVal.str "t"),
       ("schema_overrides", JVal.obj [("id", JVal.obj [("type", JVal.str "integer")])]),
       ("selected", JVal.bool false)]
      [("id", JVal.obj [("type", JVal.str "string")]),
       ("other", JVal.obj [("type", JVal.str "number")])]
      [("id", JVal.obj [("type", JVal.str "integer")])] rfl rfl (by simp [keyNodup]) rfl).2.2.2.1⟩

/-- Counterexample to C8 as stated: `discover` DOES fail globally for a
configuration whose failing table block lacks a `name` key — the `except`
handler's log line itself evaluates `table_spec['name']` and raises — even
though the same collaborators discover the well-formed table fine on its
own. -/
theorem C8_counterexample :
    discover
      (Collab.mk (fun _ => Except.ok 0) (fun _ _ => Except.ok [])
        (fun _ _ => Except.ok []) (fun _ => Except.ok []))
      [([] : Obj), [("name", JVal.str "good"), ("start_date", JVal.str "2020-01-01")]]
      = Except.error "KeyError: name" ∧
    (∃ es, discover
      (Collab.mk (fun _ => Except.ok 0) (fun _ _ => Except.ok [])
        (fun _ _ => Except.ok []) (fun _ => Except.ok []))
      [[("name", JVal.str "good"), ("start_date", JVal.str "2020-01-01")]]
      = Except.ok es ∧ es.length = 1) :=
  ⟨rfl, ⟨_, rfl, rfl⟩⟩

/-- C8 (amended): for every configuration in which each table block carries
a `name` key (in particular every configuration that passed validation),
`discover` never fails: any exception while producing one table's catalog
entry (unreachable location, bad pattern, inference failure — any failing
collaborator step) causes exactly that table to be logged and omitted, and
the result is the list of entries of the non-failing tables, in order. -/
theorem C8_discover_skips_failing_tables (c : Collab) :
    ∀ (tables : List Obj), (∀ t ∈ tables, hasKey t "name" = true) →
    discover c tables
      = Except.ok (tables.filterMap (fun t => (buildEntry c t).toOption)) := by
  intro tables
  induction tables with
  | nil => intro _; rfl
  | cons t rest ih =>
    intro h
    have ht := h t (List.mem_cons_self t rest)
    have hrest : ∀ t' ∈ rest, hasKey t' "name" = true :=
      fun t' ht' => h t' (List.mem_cons_of_mem t ht')
    simp only [discover]
    cases hb : buildEntry c t with
    | ok e =>
      rw [ih hrest]
      simp [List.filterMap_cons, hb, Except.toOption, Except.map]
    | error err =>
      rw [if_pos ht, ih hrest]
      simp [List.filterMap_cons, hb, Except.toOption]

/-- Witness for C8 (amended): a two-table configuration where the second
table fails (missing `start_date`) but has a `name`; discovery returns
exactly the first table's entry. -/
theorem C8_witness :
    (∀ t ∈ [[("name", JVal.str "good"), ("start_date", JVal.str "2020-01-01")],
            [("name", JVal.str "b")]], hasKey t "name" = true) ∧
    discover
      (Collab.mk (fun _ => Except.ok 0) (fun _ _ => Except.ok [])
        (fun _ _ => Except.ok []) (fun _ => Except.ok []))
      [[("name", JVal.str "good"), ("start_date", JVal.str "2020-01-01")],
       [("name", JVal.str "b")]]
      = Except.ok
          ([[("name", JVal.str "good"), ("start_date", JVal.str "2020-01-01")],
            [("name", JVal.str "b")]].filterMap
            (fun t => (buildEntry
              (Collab.mk (fun _ => Except.ok 0) (fun _ _ => Except.ok [])
                (fun _ _ => Except.ok []) (fun _ => Except.ok [])) t).toOption)) :=
  ⟨by decide,
   C8_discover_skips_failing_tables
     (Collab.mk (fun _ => Except.ok 0) (fun _ _ => Except.ok [])
       (fun _ _ => Except.ok []) (fun _ => Except.ok []))
     [[("name", JVal.str "good"), ("start_date", JVal.str "2020-01-01")],
      [("name", JVal.str "b")]] (by decide)⟩

lemma widen_absorb : ∀ a t : FType, widen a (widen a t) = widen a t := by decide

lemma widen_right : ∀ a t : FType, widen t (widen a t) = widen a t := by decide

lemma widen_mono : ∀ a b t : FType, widen a b = b →
    widen (widen a t) (widen b t) = widen b t := by decide

lemma ftle_trans : ∀ a b c : FType, ftle a b → ftle b c → ftle a c := by decide

lemma oftle_refl : ∀ o : Option FType, oftle o o := by decide

lemma oftle_trans : ∀ a b c : Option FType, oftle a b → oftle b c → oftle a c := by decide

lemma oftle_inferStep_self : ∀ (acc : Option FType) (v : VKind),
    oftle acc (inferStep acc v) := by decide

lemma inferStep_mono : ∀ (v : VKind) (a b : Option FType), oftle a b →
    oftle (inferStep a v) (inferStep b v) := by decide

lemma foldl_inferStep_extend : ∀ (l : List VKind) (acc : Option FType),
    oftle acc (List.foldl inferStep acc l) := by
  intro l
  induction l with
  | nil => intro acc; exact oftle_refl acc
  | cons v rest ih =>
    intro acc
    exact oftle_trans _ _ _ (oftle_inferStep_self acc v) (ih (inferStep acc v))

lemma foldl_inferStep_mono : ∀ (l : List VKind) (a b : Option FType), oftle a b →
    oftle (List.foldl inferStep a l) (List.foldl inferStep b l) := by
  intro l
  induction l with
  | nil => intro a b h; exact h
  | cons v rest ih =>
    intro a b h
    exact ih _ _ (inferStep_mono v a b h)

/-- Counterexample to C7 as stated: under spec section 4.3's all-null
fallback, a sample consisting only of nulls resolves to string (the
`null,string` union's non-null component), but the same sample merged with
an integer-looking value resolves to integer — strictly narrower than
string in the widening order, so the unrestricted monotonicity claim is
false. -/
theorem C7_counterexample :
    resolveField [VKind.vnull] = FType.fstr ∧
    resolveField ([VKind.vnull] ++ [VKind.vint]) = FType.fint ∧
    ¬ ftle (resolveField [VKind.vnull]) (resolveField ([VKind.vnull] ++ [VKind.vint])) := by
  decide

/-- C7 (amended): schema inference is monotone under widening except for the
all-null fallback.  At the pre-resolution level (an all-null sample counts
as unresolved, below everything) the type inferred from concatenated samples
is never narrower — in the widening order integer below number below string,
with boolean and date-time conflicts going to string, as encoded by `widen`
— than the type inferred from either sample alone; and for resolved types
the same holds whenever the respective sample contains at least one non-null
value.  An all-null sample is the sole exception: it resolves to string by
fallback, which merging with narrower-typed values does not preserve (see
the counterexample). -/
theorem C7_inference_monotone_resolved (s1 s2 : List VKind) :
    oftle (inferField s1) (inferField (s1 ++ s2)) ∧
    oftle (inferField s2) (inferField (s1 ++ s2)) ∧
    ((inferField s1).isSome = true →
      ftle (resolveField s1) (resolveField (s1 ++ s2))) ∧
    ((inferField s2).isSome = true →
      ftle (resolveField s2) (resolveField (s1 ++ s2))) := by
  have hext : oftle (inferField s1) (inferField (s1 ++ s2)) := by
    show oftle (inferField s1) (List.foldl inferStep none (s1 ++ s2))
    rw [List.foldl_append]
    exact foldl_inferStep_extend s2 (inferField s1)
  have hmono : oftle (inferField s2) (inferField (s1 ++ s2)) := by
    show oftle (inferField s2) (List.foldl inferStep none (s1 ++ s2))
    rw [List.foldl_append]
    exact foldl_inferStep_mono s2 none (List.foldl inferStep none s1) trivial
  refine ⟨hext, hmono, ?_, ?_⟩
  · intro h1
    obtain ⟨a, ha⟩ := Option.isSome_iff_exists.mp h1
    rw [ha] at hext
    cases hm : inferField (s1 ++ s2) with
    | none => rw [hm] at hext; exact absurd hext id
    | some b =>
      rw [hm] at hext
      have hr1 : resolveField s1 = a := by unfold resolveField; rw [ha]; rfl
      have hr2 : resolveField (s1 ++ s2) = b := by unfold resolveField; rw [hm]; rfl
      rw [hr1, hr2]
      exact hext
  · intro h2
    obtain ⟨c, hc⟩ := Option.isSome_iff_exists.mp h2
    rw [hc] at hmono
    cases hm : inferField (s1 ++ s2) with
    | none => rw [hm] at hmono; exact absurd hmono id
    | some b =>
      rw [hm] at hmono
      have hr1 : resolveField s2 = c := by unfold resolveField; rw [hc]; rfl
      have hr2 : resolveField (s1 ++ s2) = b := by unfold resolveField; rw [hm]; rfl
      rw [hr1, hr2]
      exact hmono

/-- Witness for C7 (amended) at concrete resolving samples: an
integer-only sample merged with a decimal-looking one widens integer to
number, and number stays number — neither narrows. -/
theorem C7_witness :
    ((inferField [VKind.vint]).isSome = true ∧
     ftle (resolveField [VKind.vint]) (resolveField ([VKind.vint] ++ [VKind.vnum]))) ∧
    ((inferField [VKind.vnum]).isSome = true ∧
     ftle (resolveField [VKind.vnum]) (resolveField ([VKind.vint] ++ [VKind.vnum]))) :=
  ⟨⟨by decide,
    (C7_inference_monotone_resolved [VKind.vint] [VKind.vnum]).2.2.1 (by decide)⟩,
   ⟨by decide,
    (C7_inference_monotone_resolved [VKind.vint] [VKind.vnum]).2.2.2 (by decide)⟩⟩

/-- C9: `Config.validate` returns the configuration unchanged exactly when
it satisfies `CONFIG_CONTRACT` (each table block has the required `path`,
`name`, `pattern`, `start_date`, `key_properties` and a `format` among
csv/excel/json/detect, with optional keys well-typed) and raises otherwise;
and in `main` this validation runs before the discovery or sync phase, so an
invalid configuration produces the validation error no matter what discovery
and sync would do — no partial run happens. -/
theorem C9_validate_before_run :
    (∀ c : JVal, CONFIG_CONTRACT c = true → validate c = Except.ok c) ∧
    (∀ (c r : JVal), validate c = Except.ok r → r = c ∧ CONFIG_CONTRACT c = true) ∧
    (∀ c : JVal, CONFIG_CONTRACT c = false →
      validate c = Except.error "config does not match CONFIG_CONTRACT") ∧
    (∀ (A B : Type) (c : JVal) (d1 d2 : JVal → A) (s1 s2 : JVal → B) (fl : Bool),
      CONFIG_CONTRACT c = false →
      main_flow A B c d1 s1 fl = Except.error "config does not match CONFIG_CONTRACT" ∧
      main_flow A B c d1 s1 fl = main_flow A B c d2 s2 fl) := by
  refine ⟨?_, ?_, ?_, ?_⟩
  · intro c h
    unfold validate
    rw [if_pos h]
  · intro c r h
    unfold validate at h
    by_cases hc : CONFIG_CONTRACT c = true
    · rw [if_pos hc] at h
      cases h
      exact ⟨rfl, hc⟩
    · rw [if_neg hc] at h
      exact Except.noConfusion h
  · intro c h
    unfold validate
    rw [if_neg (by simp [h])]
  · intro A B c d1 d2 s1 s2 fl h
    have hv : validate c = Except.error "config does not match CONFIG_CONTRACT" := by
      unfold validate
      rw [if_neg (by simp [h])]
    constructor
    · unfold main_flow
      rw [hv]
    · unfold main_flow
      rw [hv]

/-- Witness for C9: a concrete valid single-table configuration validates to
itself, and a concrete malformed configuration is rejected before the
discovery/sync phase regardless of what those phases would compute. -/
theorem C9_witness :
    (CONFIG_CONTRACT (JVal.obj [("tables", JVal.arr [JVal.obj
        [("path", JVal.str "file://data"), ("name", JVal.str "t"),
         ("pattern", JVal.str "csv"), ("start_date", JVal.str "2020-01-01"),
         ("key_properties", JVal.arr []), ("format", JVal.str "csv")]])]) = true ∧
     validate (JVal.obj [("tables", JVal.arr [JVal.obj
        [("path", JVal.str "file://data"), ("name", JVal.str "t"),
         ("pattern", JVal.str "csv"), ("start_date", JVal.str "2020-01-01"),
         ("key_properties", JVal.arr []), ("format", JVal.str "csv")]])])
       = Except.ok (JVal.obj [("tables", JVal.arr [JVal.obj
        [("path", JVal.str "file://data"), ("name", JVal.str "t"),
         ("pattern", JVal.str "csv"), ("start_date", JVal.str "2020-01-01"),
         ("key_properties", JVal.arr []), ("format", JVal.str "csv")]])])) ∧
    (CONFIG_CONTRACT (JVal.str "nope") = false ∧
     validate (JVal.str "nope")
       = Except.error "config does not match CONFIG_CONTRACT" ∧
     main_flow Nat Nat (JVal.str "nope") (fun _ => 1) (fun _ => 2) true
       = Except.error "config does not match CONFIG_CONTRACT" ∧
     main_flow Nat Nat (JVal.str "nope") (fun _ => 1) (fun _ => 2) true
       = main_flow Nat Nat (JVal.str "nope") (fun _ => 7) (fun _ => 8) true) :=
  ⟨⟨rfl, C9_validate_before_run.1 _ rfl⟩,
   ⟨rfl, C9_validate_before_run.2.2.1 _ rfl,
    (C9_validate_before_run.2.2.2 Nat Nat (JVal.str "nope")
      (fun _ => 1) (fun _ => 7) (fun _ => 2) (fun _ => 8) true rfl).1,
    (C9_validate_before_run.2.2.2 Nat Nat (JVal.str "nope")
      (fun _ => 1) (fun _ => 7) (fun _ => 2) (fun _ => 8) true rfl).2⟩⟩

end TapSpreadsheets
